import Mathlib

/-!
# LuminanceHDR: display quantisation, response curves, colorspace transform

A shallow embedding of

* `src/Fileformat/pfsoutldrimage.cpp` (`fromLDRPFStoQImage`),
* `src/HdrCreation/responses.h` (the `ResponseFunction` enum and the four
  response classes),
* `src/Libpfs/colorspace/transform.h` (the `transform` primitive, of which only
  the declaration is part of the sources),

followed by the properties established about them.

Conventions of the embedding.

* `float` values are elements of an arbitrary type `α`: nothing below depends on
  floating-point arithmetic, only on which value is moved where.
* `QRgb` values are elements of an arbitrary type `Q`, `RGBMappingType` values
  of an arbitrary type `M` (the enum is declared in a header that is not part
  of the sources).
* C arrays are lists; an access outside an array is a fault of its own.
* `int` is a signed 32-bit integer; a product of two `int`s is wrapped.
* A pointer that may be `NULL` is an `Option`.
-/

namespace LuminanceHDR

/-! ## Machine integers -/

/-- The value of a mathematical integer once stored in a signed 32-bit `int`. -/
def wrapInt32 (z : Int) : Int :=
  (z + 2147483648) % 4294967296 - 2147483648

/-! ## External collaborators of `fromLDRPFStoQImage` -/

/-- The class `pfs::Channel` (header `Libpfs/frame.h`, not part of the sources):
only `data()` is used, the contiguous array of the samples of the channel. -/
structure Channel (α : Type) where
  data : List α
deriving DecidableEq

/-- The class `pfs::Frame` (header `Libpfs/frame.h`, not part of the sources):
the dimensions returned by `getWidth()` and `getHeight()` and the three pointers
that `getXYZChannels` stores in its arguments, each of which may be `NULL`. -/
structure Frame (α : Type) where
  width : Nat
  height : Nat
  Xc : Option (Channel α)
  Yc : Option (Channel α)
  Zc : Option (Channel α)
deriving DecidableEq

/-- The object `RGBRemapper rgbRemapper(min_luminance, max_luminance,
mapping_method)` of line 80 (class declared in
`Libpfs/colorspace/rgbremapper_fwd.h`, not part of the sources): the three
arguments of its constructor, which is taken to record them and do nothing
else. -/
structure RGBRemapper (α M : Type) where
  minValue : α
  maxValue : α
  mappingMethod : M
deriving DecidableEq

/-- A `QImage` of format `Format_RGB32`: its dimensions and the pixel buffer
returned by `bits()`, one `QRgb` per pixel in row-major order. -/
structure QImage (Q : Type) where
  width : Int
  height : Int
  bits : List Q
deriving DecidableEq

/-- The constructor `QImage(width, height, QImage::Format_RGB32)`. The buffer is
not initialised by the constructor: `uninit i` is whatever cell `i` holds when
the image is handed out. Non-positive dimensions give the null image, which has
no pixel; for positive dimensions the allocation is taken to succeed. -/
def QImage.new {Q : Type} (width height : Int) (uninit : Nat → Q) : QImage Q :=
  if 0 < width ∧ 0 < height then
    { width := width, height := height,
      bits := (List.range (width.toNat * height.toNat)).map uninit }
  else
    { width := 0, height := 0, bits := [] }

/-! ## `fromLDRPFStoQImage` -/

/-- The observable effects of a call, in the order in which they happen. -/
inductive Event where
  /-- Line 71: `new QImage(width, height, ...)`. -/
  | newQImage (width height : Int)
  /-- Line 85: a store to `pixels[idx]`. -/
  | store (idx : Nat)
deriving DecidableEq

/-- The memory the pixel loop works on: the three channel buffers behind
`p_R`, `p_G`, `p_B` (lines 74-76), the buffer behind `pixels` (line 78), and the
log of the effects so far. -/
structure Mem (α Q : Type) where
  p_R : List α
  p_G : List α
  p_B : List α
  pixels : List Q
  events : List Event
deriving DecidableEq

/-- Line 85, `rgbRemapper.toQRgb(p_R[idx], p_G[idx], p_B[idx], pixels[idx])`:
one iteration of the loop. `toQRgb` is the method of that name (not part of the
sources): the value it stores in its fourth argument for the remapper and the
three samples. The result is `none` when one of the four accesses is outside
its array. -/
def loopBody {α M Q : Type} (toQRgb : RGBRemapper α M → α → α → α → Q)
    (rgbRemapper : RGBRemapper α M) (idx : Nat) (m : Mem α Q) : Option (Mem α Q) :=
  match m.p_R[idx]?, m.p_G[idx]?, m.p_B[idx]? with
  | some r, some g, some b =>
    if idx < m.pixels.length then
      some { m with pixels := m.pixels.set idx (toQRgb rgbRemapper r g b),
                    events := m.events ++ [Event.store idx] }
    else none
  | _, _, _ => none

/-- Lines 82-86: the iterations of the loop, run one after the other in the
order given by `order`; the first faulting iteration ends the run. -/
def pixelLoop {α M Q : Type} (toQRgb : RGBRemapper α M → α → α → α → Q)
    (rgbRemapper : RGBRemapper α M) : List Nat → Mem α Q → Option (Mem α Q)
  | [], m => some m
  | idx :: rest, m =>
    match loopBody toQRgb rgbRemapper idx m with
    | some m1 => pixelLoop toQRgb rgbRemapper rest m1
    | none => none

/-- How a call of `fromLDRPFStoQImage` ends. -/
inductive Outcome (Q : Type) where
  /-- Line 93: `return temp_qimage`. -/
  | returned (image : QImage Q)
  /-- Line 62: `throw std::runtime_error(what)`. -/
  | runtimeError (what : String)
  /-- Line 66: the `assert` does not hold and the program is aborted. -/
  | assertionFailed
  /-- An access outside an array (undefined behaviour in C++). -/
  | outOfBounds
deriving DecidableEq

/-- A finished call: how it ended, the effects it had, and the caller's frame
as the call leaves it (`none` when the caller passed `NULL`). -/
structure Call (α Q : Type) where
  outcome : Outcome Q
  events : List Event
  frame : Option (Frame α)
deriving DecidableEq

/-- The function `fromLDRPFStoQImage` (lines 50-94), with the order in which the
iterations of the `#pragma omp parallel for` loop are executed left to the
schedule `sched`: for `n` iterations `sched n` lists the indices in execution
order. `uninit` is the initial content of the freshly allocated image. The
`assert` of line 66 is modelled as compiled in. -/
def fromLDRPFStoQImageSched {α M Q : Type} (sched : Nat → List Nat)
    (toQRgb : RGBRemapper α M → α → α → α → Q) (uninit : Nat → Q)
    (in_frame : Option (Frame α)) (min_luminance max_luminance : α)
    (mapping_method : M) : Call α Q :=
  match in_frame with
  | none =>
    { outcome := Outcome.runtimeError "Null pointer", events := [], frame := none }
  | some frame =>
    match frame.Xc, frame.Yc, frame.Zc with
    | some Xc, some Yc, some Zc =>
      let width : Int := wrapInt32 frame.width
      let height : Int := wrapInt32 frame.height
      let temp_qimage : QImage Q := QImage.new width height uninit
      let m0 : Mem α Q :=
        { p_R := Xc.data, p_G := Yc.data, p_B := Zc.data,
          pixels := temp_qimage.bits,
          events := [Event.newQImage width height] }
      let rgbRemapper : RGBRemapper α M :=
        { minValue := min_luminance, maxValue := max_luminance,
          mappingMethod := mapping_method }
      match pixelLoop toQRgb rgbRemapper
          (sched (wrapInt32 (height * width)).toNat) m0 with
      | some m =>
        { outcome := Outcome.returned { temp_qimage with bits := m.pixels },
          events := m.events,
          frame := some { frame with Xc := some { data := m.p_R },
                                     Yc := some { data := m.p_G },
                                     Zc := some { data := m.p_B } } }
      | none =>
        { outcome := Outcome.outOfBounds, events := m0.events, frame := some frame }
    | _, _, _ =>
      { outcome := Outcome.assertionFailed, events := [], frame := some frame }

/-- The function `fromLDRPFStoQImage` as written: the loop of line 83 runs
`idx = 0, 1, ..., height*width - 1` in ascending order. -/
def fromLDRPFStoQImage {α M Q : Type}
    (toQRgb : RGBRemapper α M → α → α → α → Q) (uninit : Nat → Q)
    (in_frame : Option (Frame α)) (min_luminance max_luminance : α)
    (mapping_method : M) : Call α Q :=
  fromLDRPFStoQImageSched List.range toQRgb uninit in_frame
    min_luminance max_luminance mapping_method

/-- A frame as the callers build it: the three channels are present and each
holds `width * height` samples, and `width * height` fits a signed 32-bit
`int`. -/
def Frame.Valid {α : Type} (f : Frame α) : Prop :=
  f.width * f.height < 2147483648 ∧
  ∃ X Y Z : Channel α,
    f.Xc = some X ∧ f.Yc = some Y ∧ f.Zc = some Z ∧
    X.data.length = f.width * f.height ∧
    Y.data.length = f.width * f.height ∧
    Z.data.length = f.width * f.height

/-- The value the loop body stores at index `j`, computed from the channel
buffers of `m`; `none` when `j` is outside one of them. -/
def remapAt {α M Q : Type} (toQRgb : RGBRemapper α M → α → α → α → Q)
    (rgbRemapper : RGBRemapper α M) (m : Mem α Q) (j : Nat) : Option Q :=
  match m.p_R[j]?, m.p_G[j]?, m.p_B[j]? with
  | some r, some g, some b => some (toQRgb rgbRemapper r g b)
  | _, _, _ => none

/-- All four buffers of `m` hold exactly `n` cells. -/
def Mem.Sized {α Q : Type} (n : Nat) (m : Mem α Q) : Prop :=
  m.p_R.length = n ∧ m.p_G.length = n ∧ m.p_B.length = n ∧ m.pixels.length = n

/-- The triple `(X[i], Y[i], Z[i])` of a frame, `none` when a channel is absent
or `i` is outside one of them. -/
def Frame.triple {α : Type} (f : Frame α) (i : Nat) : Option (α × α × α) :=
  match f.Xc, f.Yc, f.Zc with
  | some X, some Y, some Z =>
    match X.data[i]?, Y.data[i]?, Z.data[i]? with
    | some x, some y, some z => some (x, y, z)
    | _, _, _ => none
  | _, _, _ => none

/-- Pixel `i` of the image a call returned, `none` when the call returned no
image or the image has no pixel `i`. -/
def Call.pixel {α Q : Type} (c : Call α Q) (i : Nat) : Option Q :=
  match c.outcome with
  | Outcome.returned image => image.bits[i]?
  | _ => none

/-! ## `responses.h` -/

/-- The enum `ResponseFunction` (lines 37-42). -/
inductive ResponseFunction where
  | RESPONSE_GAMMA
  | RESPONSE_LINEAR
  | RESPONSE_LOG10
  | RESPONSE_SRGB
deriving DecidableEq

/-- The integer value of each enumerator, in declaration order from 0. -/
def ResponseFunction.toInt : ResponseFunction → Int
  | ResponseFunction.RESPONSE_GAMMA => 0
  | ResponseFunction.RESPONSE_LINEAR => 1
  | ResponseFunction.RESPONSE_LOG10 => 2
  | ResponseFunction.RESPONSE_SRGB => 3

/-- The class `ResponseGamma` (lines 59-68); it has no data member. -/
structure ResponseGamma where
deriving DecidableEq

/-- The class `ResponseLinear` (lines 70-83); it has no data member. -/
structure ResponseLinear where
deriving DecidableEq

/-- The class `ResponseLog10` (lines 85-94); it has no data member. -/
structure ResponseLog10 where
deriving DecidableEq

/-- The class `ResponseSRGB` (lines 96-105); it has no data member. -/
structure ResponseSRGB where
deriving DecidableEq

/-- The method `ResponseGamma::getType` (lines 65-67). -/
def ResponseGamma.getType (_ : ResponseGamma) : ResponseFunction :=
  ResponseFunction.RESPONSE_GAMMA

/-- The method `ResponseLinear::getResponse` (lines 73-75). -/
def ResponseLinear.getResponse {α : Type} (_ : ResponseLinear) (input : α) : α :=
  input

/-- The method `ResponseLinear::getInverseResponse` (lines 76-78). -/
def ResponseLinear.getInverseResponse {α : Type} (_ : ResponseLinear) (input : α) : α :=
  input

/-- The method `ResponseLinear::getType` (lines 80-82). -/
def ResponseLinear.getType (_ : ResponseLinear) : ResponseFunction :=
  ResponseFunction.RESPONSE_LINEAR

/-- The method `ResponseLog10::getType` (lines 91-93). -/
def ResponseLog10.getType (_ : ResponseLog10) : ResponseFunction :=
  ResponseFunction.RESPONSE_LOG10

/-- The method `ResponseSRGB::getType` (lines 102-104). -/
def ResponseSRGB.getType (_ : ResponseSRGB) : ResponseFunction :=
  ResponseFunction.RESPONSE_SRGB

/-- An object seen through the interface `IResponseFunction` (lines 44-57): an
instance of one of the four classes that derive from it. -/
inductive IResponseFunction where
  | gamma (r : ResponseGamma)
  | linear (r : ResponseLinear)
  | log10 (r : ResponseLog10)
  | srgb (r : ResponseSRGB)
deriving DecidableEq

/-- The virtual method `IResponseFunction::getType` (line 56): the call is
dispatched to the class of the object. -/
def IResponseFunction.getType : IResponseFunction → ResponseFunction
  | IResponseFunction.gamma r => r.getType
  | IResponseFunction.linear r => r.getType
  | IResponseFunction.log10 r => r.getType
  | IResponseFunction.srgb r => r.getType

/-! ## `transform.h` -/

namespace colorspace

end colorspace

/-! ## Sample data -/

/-- A remapper that records what it was given: the pixel it writes is the
remapper together with the three samples. -/
def recordingToQRgb : RGBRemapper Int Nat → Int → Int → Int → RGBRemapper Int Nat × Int × Int × Int :=
  fun r x y z => (r, x, y, z)

/-- What the cells of a fresh image hold in the sample calls. -/
def staleCell : Nat → RGBRemapper Int Nat × Int × Int × Int :=
  fun i => (⟨0, 0, 0⟩, -1, -1, -(i : Int))

/-- The frame of the specification's example: 2 by 1, samples `(0,0,0)` and
`(1,1,1)`. -/
def frame2x1 : Frame Int :=
  { width := 2, height := 1,
    Xc := some ⟨[0, 1]⟩, Yc := some ⟨[0, 1]⟩, Zc := some ⟨[0, 1]⟩ }

/-- A 2 by 1 frame that differs from `frame2x1` at index 0 only. -/
def frame2x1b : Frame Int :=
  { width := 2, height := 1,
    Xc := some ⟨[5, 1]⟩, Yc := some ⟨[6, 1]⟩, Zc := some ⟨[7, 1]⟩ }

/-- A 2 by 1 frame whose X channel is absent. -/
def frameNoX : Frame Int :=
  { width := 2, height := 1,
    Xc := none, Yc := some ⟨[0, 1]⟩, Zc := some ⟨[0, 1]⟩ }

/-! ## Lemmas on machine integers -/

theorem wrapInt32_of_lt (n : Nat) (h : n < 2147483648) : wrapInt32 (n : Int) = n := by
  unfold wrapInt32
  omega

theorem wrapInt32_zero : wrapInt32 0 = 0 := by
  decide

/-- When `width * height` fits an `int`, the bound `height*width` of the loop
is that number. -/
theorem loop_bound (w h : Nat) (hwh : w * h < 2147483648) :
    (wrapInt32 (wrapInt32 h * wrapInt32 w)).toNat = w * h := by
  rcases Nat.eq_zero_or_pos w with hw | hw
  · subst hw
    simp [wrapInt32_zero]
  rcases Nat.eq_zero_or_pos h with hh | hh
  · subst hh
    simp [wrapInt32_zero]
  have hw1 : w < 2147483648 := lt_of_le_of_lt (Nat.le_mul_of_pos_right w hh) hwh
  have hh1 : h < 2147483648 := lt_of_le_of_lt (Nat.le_mul_of_pos_left h hw) hwh
  rw [wrapInt32_of_lt w hw1, wrapInt32_of_lt h hh1]
  have e : ((h : Int) * (w : Int)) = ((w * h : Nat) : Int) := by
    push_cast
    ring
  rw [e, wrapInt32_of_lt _ hwh]
  exact Int.toNat_ofNat (w * h)

/-- When `width * height` fits an `int`, the image allocated at line 71 has
`width * height` pixels. -/
theorem QImage.new_bits_length {Q : Type} (w h : Nat) (hwh : w * h < 2147483648)
    (uninit : Nat → Q) :
    (QImage.new (wrapInt32 w) (wrapInt32 h) uninit).bits.length = w * h := by
  rcases Nat.eq_zero_or_pos w with hw | hw
  · subst hw
    simp [QImage.new, wrapInt32_zero]
  rcases Nat.eq_zero_or_pos h with hh | hh
  · subst hh
    simp [QImage.new, wrapInt32_zero]
  have hw1 : w < 2147483648 := lt_of_le_of_lt (Nat.le_mul_of_pos_right w hh) hwh
  have hh1 : h < 2147483648 := lt_of_le_of_lt (Nat.le_mul_of_pos_left h hw) hwh
  rw [wrapInt32_of_lt w hw1, wrapInt32_of_lt h hh1]
  have : (0 : Int) < w ∧ (0 : Int) < h := ⟨by exact_mod_cast hw, by exact_mod_cast hh⟩
  simp [QImage.new, this]

/-! ## Lemmas on the pixel loop -/

/-- One in-bounds iteration succeeds, and its result is known. -/
theorem loopBody_eq {α M Q : Type} (toQRgb : RGBRemapper α M → α → α → α → Q)
    (rgb : RGBRemapper α M) (n idx : Nat) (m : Mem α Q) (hm : m.Sized n)
    (hidx : idx < n) :
    ∃ r g b, m.p_R[idx]? = some r ∧ m.p_G[idx]? = some g ∧ m.p_B[idx]? = some b ∧
      loopBody toQRgb rgb idx m =
        some { m with pixels := m.pixels.set idx (toQRgb rgb r g b),
                      events := m.events ++ [Event.store idx] } := by
  obtain ⟨hR, hG, hB, hP⟩ := hm
  have h1 : idx < m.p_R.length := by omega
  have h2 : idx < m.p_G.length := by omega
  have h3 : idx < m.p_B.length := by omega
  have h4 : idx < m.pixels.length := by omega
  refine ⟨m.p_R[idx], m.p_G[idx], m.p_B[idx], List.getElem?_eq_getElem h1,
    List.getElem?_eq_getElem h2, List.getElem?_eq_getElem h3, ?_⟩
  simp [loopBody, List.getElem?_eq_getElem h1, List.getElem?_eq_getElem h2,
    List.getElem?_eq_getElem h3, h4]

/-- The loop run over any list of in-bounds indices, in any order and with or
without repetitions: it does not fault, leaves the channel buffers alone,
logs one store per iteration, and leaves in cell `j` the remapped triple of
index `j` when `j` was visited and the old content otherwise. -/
theorem pixelLoop_spec {α M Q : Type} (toQRgb : RGBRemapper α M → α → α → α → Q)
    (rgb : RGBRemapper α M) (n : Nat) :
    ∀ (order : List Nat) (m : Mem α Q), m.Sized n → (∀ i ∈ order, i < n) →
      ∃ m1, pixelLoop toQRgb rgb order m = some m1 ∧
        m1.p_R = m.p_R ∧ m1.p_G = m.p_G ∧ m1.p_B = m.p_B ∧
        m1.pixels.length = n ∧
        m1.events = m.events ++ order.map Event.store ∧
        ∀ j, m1.pixels[j]? =
          if j ∈ order then remapAt toQRgb rgb m j else m.pixels[j]? := by
  intro order
  induction order with
  | nil =>
    intro m hm _
    exact ⟨m, rfl, rfl, rfl, rfl, hm.2.2.2, by simp, by simp⟩
  | cons idx rest ih =>
    intro m hm hord
    have hidx : idx < n := hord idx (List.mem_cons_self _ _)
    obtain ⟨r, g, b, hr, hg, hb, hbody⟩ := loopBody_eq toQRgb rgb n idx m hm hidx
    have hsz : Mem.Sized n { m with pixels := m.pixels.set idx (toQRgb rgb r g b),
                                    events := m.events ++ [Event.store idx] } := by
      obtain ⟨hR, hG, hB, hP⟩ := hm
      exact ⟨hR, hG, hB, by simpa using hP⟩
    obtain ⟨m1, hrun, h1, h2, h3, hlen, hev, hpix⟩ :=
      ih _ hsz (fun i hi => hord i (List.mem_cons_of_mem _ hi))
    refine ⟨m1, ?_, h1, h2, h3, hlen, ?_, ?_⟩
    · simp only [pixelLoop, hbody]
      exact hrun
    · rw [hev]
      simp
    · intro j
      rw [hpix j]
      have hremap : remapAt toQRgb rgb
          { m with pixels := m.pixels.set idx (toQRgb rgb r g b),
                   events := m.events ++ [Event.store idx] } j
          = remapAt toQRgb rgb m j := rfl
      rw [hremap]
      by_cases hjr : j ∈ rest
      · simp [hjr]
      · by_cases hji : j = idx
        · subst hji
          have hlt : j < m.pixels.length := by
            have := hm.2.2.2
            omega
          simp [hjr, remapAt, hr, hg, hb, List.getElem?_set_self hlt]
        · have hne : idx ≠ j := fun e => hji e.symm
          simp [hjr, hji, List.getElem?_set_ne hne]

/-- The loop started on three channel buffers and an image buffer of `n` cells
each, over indices below `n`: the form of `pixelLoop_spec` used for a call. -/
theorem pixelLoop_run {α M Q : Type} (toQRgb : RGBRemapper α M → α → α → α → Q)
    (rgb : RGBRemapper α M) (n : Nat) (order : List Nat) (X Y Z : List α)
    (buf : List Q) (ev : List Event)
    (lX : X.length = n) (lY : Y.length = n) (lZ : Z.length = n)
    (lbuf : buf.length = n) (hs : ∀ i ∈ order, i < n) :
    ∃ m1, pixelLoop toQRgb rgb order
          { p_R := X, p_G := Y, p_B := Z, pixels := buf, events := ev } = some m1 ∧
      m1.p_R = X ∧ m1.p_G = Y ∧ m1.p_B = Z ∧
      m1.pixels.length = n ∧
      m1.events = ev ++ order.map Event.store ∧
      (∀ j ∈ order, ∃ x y z, X[j]? = some x ∧ Y[j]? = some y ∧ Z[j]? = some z ∧
        m1.pixels[j]? = some (toQRgb rgb x y z)) ∧
      (∀ j, j ∉ order → m1.pixels[j]? = buf[j]?) := by
  have hsz : Mem.Sized n
      ({ p_R := X, p_G := Y, p_B := Z, pixels := buf, events := ev } : Mem α Q) :=
    ⟨lX, lY, lZ, lbuf⟩
  obtain ⟨m1, hrun, h1, h2, h3, hlen, hev, hpix⟩ :=
    pixelLoop_spec toQRgb rgb n order _ hsz hs
  refine ⟨m1, hrun, h1, h2, h3, hlen, hev, ?_, ?_⟩
  · intro j hj
    have hjn : j < n := hs j hj
    have e1 : j < X.length := by omega
    have e2 : j < Y.length := by omega
    have e3 : j < Z.length := by omega
    refine ⟨X[j], Y[j], Z[j], List.getElem?_eq_getElem e1,
      List.getElem?_eq_getElem e2, List.getElem?_eq_getElem e3, ?_⟩
    have := hpix j
    simpa [hj, remapAt, List.getElem?_eq_getElem e1, List.getElem?_eq_getElem e2,
      List.getElem?_eq_getElem e3] using this
  · intro j hj
    have := hpix j
    simpa [hj] using this

/-- Writing back the channel buffers a frame already holds gives the frame. -/
theorem Frame.rebuild {α : Type} (f : Frame α) (X Y Z : Channel α)
    (hX : f.Xc = some X) (hY : f.Yc = some Y) (hZ : f.Zc = some Z) :
    ({ width := f.width, height := f.height, Xc := some { data := X.data },
       Yc := some { data := Y.data }, Zc := some { data := Z.data } } : Frame α) = f := by
  cases f
  cases X
  cases Y
  cases Z
  simp_all

/-- A call on a valid frame under a schedule that only names indices of the
frame: the call returns an image of `width * height` pixels, its effects are
the allocation followed by one store per scheduled index, the frame is left as
it was, and every scheduled cell holds the remapped triple of its index while
every other cell keeps what the allocation left there. -/
theorem sched_run {α M Q : Type} (sched : Nat → List Nat)
    (toQRgb : RGBRemapper α M → α → α → α → Q) (uninit : Nat → Q)
    (f : Frame α) (lo hi : α) (method : M) (X Y Z : Channel α)
    (hwh : f.width * f.height < 2147483648)
    (hX : f.Xc = some X) (hY : f.Yc = some Y) (hZ : f.Zc = some Z)
    (lX : X.data.length = f.width * f.height)
    (lY : Y.data.length = f.width * f.height)
    (lZ : Z.data.length = f.width * f.height)
    (hs : ∀ i ∈ sched (f.width * f.height), i < f.width * f.height) :
    ∃ bits : List Q,
      fromLDRPFStoQImageSched sched toQRgb uninit (some f) lo hi method =
        { outcome := Outcome.returned
            { width := (QImage.new (wrapInt32 f.width) (wrapInt32 f.height) uninit).width,
              height := (QImage.new (wrapInt32 f.width) (wrapInt32 f.height) uninit).height,
              bits := bits },
          events := Event.newQImage (wrapInt32 f.width) (wrapInt32 f.height) ::
            (sched (f.width * f.height)).map Event.store,
          frame := some f } ∧
      bits.length = f.width * f.height ∧
      (∀ j ∈ sched (f.width * f.height), ∃ x y z,
        X.data[j]? = some x ∧ Y.data[j]? = some y ∧ Z.data[j]? = some z ∧
        bits[j]? = some (toQRgb ⟨lo, hi, method⟩ x y z)) ∧
      (∀ j, j ∉ sched (f.width * f.height) →
        bits[j]? = (QImage.new (wrapInt32 f.width) (wrapInt32 f.height) uninit).bits[j]?) := by
  obtain ⟨m1, hrun, h1, h2, h3, hlen, hev, hpix, hrest⟩ :=
    pixelLoop_run toQRgb ⟨lo, hi, method⟩ (f.width * f.height)
      (sched (f.width * f.height)) X.data Y.data Z.data
      (QImage.new (wrapInt32 f.width) (wrapInt32 f.height) uninit).bits
      [Event.newQImage (wrapInt32 f.width) (wrapInt32 f.height)]
      lX lY lZ (QImage.new_bits_length f.width f.height hwh uninit) hs
  refine ⟨m1.pixels, ?_, hlen, hpix, hrest⟩
  unfold fromLDRPFStoQImageSched
  simp only [hX, hY, hZ]
  rw [loop_bound f.width f.height hwh]
  simp only [hrun]
  rw [hev, h1, h2, h3, List.singleton_append, Frame.rebuild f X Y Z hX hY hZ]

/-- The triple of a frame at an index, from the samples of its channels. -/
theorem Frame.triple_eq {α : Type} (f : Frame α) (X Y Z : Channel α)
    (hX : f.Xc = some X) (hY : f.Yc = some Y) (hZ : f.Zc = some Z)
    (j : Nat) (x y z : α) (hx : X.data[j]? = some x) (hy : Y.data[j]? = some y)
    (hz : Z.data[j]? = some z) : f.triple j = some (x, y, z) := by
  simp only [Frame.triple, hX, hY, hZ, hx, hy, hz]

/-- The call as written on a valid frame: it returns an image of
`width * height` pixels, its effects are the allocation followed by the stores
to `0, 1, ..., width*height - 1` in that order, the frame is left as it was, and
pixel `i` is the remapped triple of index `i`. -/
theorem seq_run {α M Q : Type}
    (toQRgb : RGBRemapper α M → α → α → α → Q) (uninit : Nat → Q)
    (f : Frame α) (lo hi : α) (method : M) (hv : f.Valid) :
    ∃ bits : List Q,
      fromLDRPFStoQImage toQRgb uninit (some f) lo hi method =
        { outcome := Outcome.returned
            { width := (QImage.new (wrapInt32 f.width) (wrapInt32 f.height) uninit).width,
              height := (QImage.new (wrapInt32 f.width) (wrapInt32 f.height) uninit).height,
              bits := bits },
          events := Event.newQImage (wrapInt32 f.width) (wrapInt32 f.height) ::
            (List.range (f.width * f.height)).map Event.store,
          frame := some f } ∧
      bits.length = f.width * f.height ∧
      ∀ i, i < f.width * f.height → ∃ x y z,
        f.triple i = some (x, y, z) ∧
        bits[i]? = some (toQRgb ⟨lo, hi, method⟩ x y z) := by
  obtain ⟨hwh, X, Y, Z, hX, hY, hZ, lX, lY, lZ⟩ := hv
  obtain ⟨bits, hcall, hlen, hpix, _⟩ :=
    sched_run List.range toQRgb uninit f lo hi method X Y Z hwh hX hY hZ lX lY lZ
      (fun i hi => List.mem_range.mp hi)
  refine ⟨bits, hcall, hlen, ?_⟩
  intro i hi
  obtain ⟨x, y, z, hx, hy, hz, hb⟩ := hpix i (List.mem_range.mpr hi)
  exact ⟨x, y, z, Frame.triple_eq f X Y Z hX hY hZ i x y z hx hy hz, hb⟩

/-- The sample frame `frame2x1` is valid. -/
theorem frame2x1_valid : frame2x1.Valid :=
  ⟨by decide, ⟨[0, 1]⟩, ⟨[0, 1]⟩, ⟨[0, 1]⟩, rfl, rfl, rfl, rfl, rfl, rfl⟩

/-- The sample frame `frame2x1b` is valid. -/
theorem frame2x1b_valid : frame2x1b.Valid :=
  ⟨by decide, ⟨[5, 1]⟩, ⟨[6, 1]⟩, ⟨[7, 1]⟩, rfl, rfl, rfl, rfl, rfl, rfl⟩

/-- Pixel `i` of a call that returned an image is cell `i` of its buffer. -/
theorem Call.pixel_returned {α Q : Type} (w h : Int) (bits : List Q)
    (ev : List Event) (fr : Option (Frame α)) (i : Nat) :
    Call.pixel ({ outcome := Outcome.returned { width := w, height := h, bits := bits },
                  events := ev, frame := fr } : Call α Q) i = bits[i]? :=
  rfl

/-- The outcome of a call that returned an image. -/
theorem Call.outcome_returned {α Q : Type} (w h : Int) (bits : List Q)
    (ev : List Event) (fr : Option (Frame α)) :
    ({ outcome := Outcome.returned { width := w, height := h, bits := bits },
       events := ev, frame := fr } : Call α Q).outcome =
      Outcome.returned { width := w, height := h, bits := bits } :=
  rfl

/-- The events of a finished call. -/
theorem Call.events_mk {α Q : Type} (o : Outcome Q) (ev : List Event)
    (fr : Option (Frame α)) :
    ({ outcome := o, events := ev, frame := fr } : Call α Q).events = ev :=
  rfl

/-- The frame a finished call leaves. -/
theorem Call.frame_mk {α Q : Type} (o : Outcome Q) (ev : List Event)
    (fr : Option (Frame α)) :
    ({ outcome := o, events := ev, frame := fr } : Call α Q).frame = fr :=
  rfl

/-- Among the stores to `0, 1, ..., n - 1`, index `idx` occurs once when it is
below `n` and not at all otherwise. -/
theorem count_store_range (idx : Nat) :
    ∀ n : Nat, ((List.range n).map Event.store).count (Event.store idx) =
      if idx < n then 1 else 0 := by
  intro n
  induction n with
  | zero => simp
  | succ n ih =>
    rw [List.range_succ, List.map_append, List.count_append, ih]
    by_cases h1 : idx < n
    · have h2 : idx < n + 1 := by omega
      have h3 : n ≠ idx := by omega
      simp [h1, h2, List.count_singleton, h3]
    · by_cases h4 : idx = n
      · subst h4
        simp
      · have h2 : ¬ idx < n + 1 := by omega
        have h3 : n ≠ idx := fun e => h4 e.symm
        simp [h1, h2, List.count_singleton, h3]

/-! ## The claims -/

/-- C1: for every non-null frame whose three channels are present and hold
`width*height` samples each, with `width*height` representable as a signed
32-bit `int`, `fromLDRPFStoQImage(frame, min, max, method)` returns an image of
exactly `width*height` pixels, and for every `i` below `width*height` pixel `i`
is the value that the remapper built from `(min, max, method)` writes for the
triple `(X[i], Y[i], Z[i])`, in that argument order and at the same index. -/
theorem fromLDRPFStoQImage_pixelwise {α M Q : Type}
    (toQRgb : RGBRemapper α M → α → α → α → Q) (uninit : Nat → Q)
    (f : Frame α) (min_luminance max_luminance : α) (mapping_method : M)
    (hv : f.Valid) :
    ∃ image : QImage Q,
      (fromLDRPFStoQImage toQRgb uninit (some f) min_luminance max_luminance
        mapping_method).outcome = Outcome.returned image ∧
      image.bits.length = f.width * f.height ∧
      ∀ i, i < f.width * f.height → ∃ x y z,
        f.triple i = some (x, y, z) ∧
        image.bits[i]? =
          some (toQRgb ⟨min_luminance, max_luminance, mapping_method⟩ x y z) := by
  obtain ⟨bits, hcall, hlen, hpix⟩ :=
    seq_run toQRgb uninit f min_luminance max_luminance mapping_method hv
  rw [hcall]
  exact ⟨_, rfl, hlen, hpix⟩

/-- C1, on the 2 by 1 sample frame with window `(0, 1)`. -/
theorem fromLDRPFStoQImage_pixelwise_witness :
    frame2x1.Valid ∧
    ∃ image : QImage (RGBRemapper Int Nat × Int × Int × Int),
      (fromLDRPFStoQImage recordingToQRgb staleCell (some frame2x1) 0 1 0).outcome =
        Outcome.returned image ∧
      image.bits.length = frame2x1.width * frame2x1.height ∧
      ∀ i, i < frame2x1.width * frame2x1.height → ∃ x y z,
        frame2x1.triple i = some (x, y, z) ∧
        image.bits[i]? = some (recordingToQRgb ⟨0, 1, 0⟩ x y z) :=
  ⟨frame2x1_valid,
    fromLDRPFStoQImage_pixelwise recordingToQRgb staleCell frame2x1 0 1 0 frame2x1_valid⟩

/-- C2: for every `min_luminance`, `max_luminance` and mapping method, a call
of `fromLDRPFStoQImage` with a null frame fails with the runtime error
"Null pointer"; the call has had no effect at that point: no image was
allocated and no pixel was stored, and no image is returned. The same holds
under every schedule of the loop. -/
theorem fromLDRPFStoQImage_null_frame {α M Q : Type}
    (toQRgb : RGBRemapper α M → α → α → α → Q) (uninit : Nat → Q)
    (min_luminance max_luminance : α) (mapping_method : M) :
    fromLDRPFStoQImage toQRgb uninit none min_luminance max_luminance mapping_method =
      { outcome := Outcome.runtimeError "Null pointer", events := [], frame := none } ∧
    (∀ i, (fromLDRPFStoQImage toQRgb uninit none min_luminance max_luminance
      mapping_method).pixel i = none) ∧
    ∀ sched : Nat → List Nat,
      fromLDRPFStoQImageSched sched toQRgb uninit none min_luminance max_luminance
        mapping_method =
      { outcome := Outcome.runtimeError "Null pointer", events := [], frame := none } :=
  ⟨rfl, fun _ => rfl, fun _ => rfl⟩

/-- C3, as stated, fails: on the sample frame whose X channel is absent the call
ends in the failed assertion of line 66, which is not the outcome of the call
with a null frame (the runtime error of line 62). -/
theorem absent_channel_is_not_null_frame_error :
    (fromLDRPFStoQImage recordingToQRgb staleCell (some frameNoX) 0 1 0).outcome =
      Outcome.assertionFailed ∧
    ¬ ((fromLDRPFStoQImage recordingToQRgb staleCell (some frameNoX) 0 1 0).outcome =
      (fromLDRPFStoQImage recordingToQRgb staleCell none 0 1 0).outcome) := by
  decide

/-- C3, amended: for every non-null frame in which at least one of the three
channels is absent, `fromLDRPFStoQImage` stops at the assertion of line 66 (an
abort, not the runtime error raised for a null frame), before an image is
allocated or a pixel stored, and returns no image. -/
theorem fromLDRPFStoQImage_absent_channel {α M Q : Type}
    (toQRgb : RGBRemapper α M → α → α → α → Q) (uninit : Nat → Q)
    (f : Frame α) (min_luminance max_luminance : α) (mapping_method : M)
    (h : f.Xc = none ∨ f.Yc = none ∨ f.Zc = none) :
    fromLDRPFStoQImage toQRgb uninit (some f) min_luminance max_luminance
        mapping_method =
      { outcome := Outcome.assertionFailed, events := [], frame := some f } ∧
    (∀ what, (fromLDRPFStoQImage toQRgb uninit (some f) min_luminance max_luminance
        mapping_method).outcome ≠ Outcome.runtimeError what) ∧
    ∀ i, (fromLDRPFStoQImage toQRgb uninit (some f) min_luminance max_luminance
        mapping_method).pixel i = none := by
  have key : fromLDRPFStoQImage toQRgb uninit (some f) min_luminance max_luminance
      mapping_method =
      { outcome := Outcome.assertionFailed, events := [], frame := some f } := by
    cases f with
    | mk w h Xc Yc Zc =>
      cases Xc with
      | none => rfl
      | some X =>
        cases Yc with
        | none => rfl
        | some Y =>
          cases Zc with
          | none => rfl
          | some Z => simp at h
  rw [key]
  exact ⟨rfl, fun _ hne => Outcome.noConfusion hne, fun _ => rfl⟩

/-- C3 amended, on the sample frame whose X channel is absent. -/
theorem fromLDRPFStoQImage_absent_channel_witness :
    (frameNoX.Xc = none ∨ frameNoX.Yc = none ∨ frameNoX.Zc = none) ∧
    fromLDRPFStoQImage recordingToQRgb staleCell (some frameNoX) 0 1 0 =
      { outcome := Outcome.assertionFailed, events := [], frame := some frameNoX } ∧
    (∀ what, (fromLDRPFStoQImage recordingToQRgb staleCell (some frameNoX) 0 1
        0).outcome ≠ Outcome.runtimeError what) ∧
    ∀ i, (fromLDRPFStoQImage recordingToQRgb staleCell (some frameNoX) 0 1 0).pixel i =
      none :=
  ⟨Or.inl rfl,
    fromLDRPFStoQImage_absent_channel recordingToQRgb staleCell frameNoX 0 1 0 (Or.inl rfl)⟩

/-- C4, as stated, fails: with `min_luminance = 2` and `max_luminance = 1` the
call on the valid 2 by 1 sample frame does not fail; it returns the image whose
two pixels were written by the remapper built from the window `(2, 1)`. -/
theorem inverted_window_returns_image :
    (1 : Int) < 2 ∧ frame2x1.Valid ∧
    (fromLDRPFStoQImage recordingToQRgb staleCell (some frame2x1) 2 1 0).outcome =
      Outcome.returned
        { width := 2, height := 1,
          bits := [recordingToQRgb ⟨2, 1, 0⟩ 0 0 0, recordingToQRgb ⟨2, 1, 0⟩ 1 1 1] } :=
  ⟨by decide, frame2x1_valid, by decide⟩

/-- C4, amended: `fromLDRPFStoQImage` does not compare `min_luminance` with
`max_luminance`. With `min_luminance > max_luminance` a null frame gives the
runtime error "Null pointer", and a valid frame gives the image of
`width*height` pixels in which pixel `i` is what the remapper built from that
window writes for `(X[i], Y[i], Z[i])`. -/
theorem fromLDRPFStoQImage_inverted_window {α M Q : Type} [LT α]
    (toQRgb : RGBRemapper α M → α → α → α → Q) (uninit : Nat → Q)
    (min_luminance max_luminance : α) (mapping_method : M)
    (_hwin : max_luminance < min_luminance) :
    (fromLDRPFStoQImage toQRgb uninit none min_luminance max_luminance
        mapping_method).outcome = Outcome.runtimeError "Null pointer" ∧
    ∀ f : Frame α, f.Valid →
      ∃ image : QImage Q,
        (fromLDRPFStoQImage toQRgb uninit (some f) min_luminance max_luminance
          mapping_method).outcome = Outcome.returned image ∧
        image.bits.length = f.width * f.height ∧
        ∀ i, i < f.width * f.height → ∃ x y z,
          f.triple i = some (x, y, z) ∧
          image.bits[i]? =
            some (toQRgb ⟨min_luminance, max_luminance, mapping_method⟩ x y z) := by
  refine ⟨rfl, ?_⟩
  intro f hv
  obtain ⟨bits, hcall, hlen, hpix⟩ :=
    seq_run toQRgb uninit f min_luminance max_luminance mapping_method hv
  rw [hcall]
  exact ⟨_, rfl, hlen, hpix⟩

/-- C4 amended, at the window `(2, 1)`. -/
theorem fromLDRPFStoQImage_inverted_window_witness :
    (1 : Int) < 2 ∧
    (fromLDRPFStoQImage recordingToQRgb staleCell none 2 1 0).outcome =
      Outcome.runtimeError "Null pointer" ∧
    ∀ f : Frame Int, f.Valid →
      ∃ image : QImage (RGBRemapper Int Nat × Int × Int × Int),
        (fromLDRPFStoQImage recordingToQRgb staleCell (some f) 2 1 0).outcome =
          Outcome.returned image ∧
        image.bits.length = f.width * f.height ∧
        ∀ i, i < f.width * f.height → ∃ x y z,
          f.triple i = some (x, y, z) ∧
          image.bits[i]? = some (recordingToQRgb ⟨2, 1, 0⟩ x y z) :=
  ⟨by decide,
    fromLDRPFStoQImage_inverted_window recordingToQRgb staleCell 2 1 0 (by decide)⟩

/-- C5: per-pixel noninterference. For two valid frames of the same width and
height, the same window and mapping method, and an index `i` at which the two
frames hold the same triple `(X[i], Y[i], Z[i])`, the two returned images hold
the same pixel at `i`, whatever the frames hold elsewhere and whatever the two
fresh images held before the loop. -/
theorem fromLDRPFStoQImage_noninterference {α M Q : Type}
    (toQRgb : RGBRemapper α M → α → α → α → Q) (uninit1 uninit2 : Nat → Q)
    (f g : Frame α) (min_luminance max_luminance : α) (mapping_method : M)
    (hf : f.Valid) (hg : g.Valid)
    (hw : f.width = g.width) (hh : f.height = g.height)
    (i : Nat) (hlt : i < f.width * f.height) (hagree : f.triple i = g.triple i) :
    ∃ q : Q,
      (fromLDRPFStoQImage toQRgb uninit1 (some f) min_luminance max_luminance
        mapping_method).pixel i = some q ∧
      (fromLDRPFStoQImage toQRgb uninit2 (some g) min_luminance max_luminance
        mapping_method).pixel i = some q := by
  obtain ⟨bf, hcf, _, hpf⟩ :=
    seq_run toQRgb uninit1 f min_luminance max_luminance mapping_method hf
  obtain ⟨bg, hcg, _, hpg⟩ :=
    seq_run toQRgb uninit2 g min_luminance max_luminance mapping_method hg
  have hlt2 : i < g.width * g.height := by
    rw [← hw, ← hh]
    exact hlt
  obtain ⟨x, y, z, htf, hbf⟩ := hpf i hlt
  obtain ⟨x2, y2, z2, htg, hbg⟩ := hpg i hlt2
  have hsame : (x2, y2, z2) = (x, y, z) := by
    have : some (x2, y2, z2) = some (x, y, z) := by
      rw [← htg, ← htf, hagree]
    exact Option.some.inj this
  have hx : x2 = x := congrArg Prod.fst hsame
  have hy : y2 = y := congrArg (fun t => t.2.1) hsame
  have hz : z2 = z := congrArg (fun t => t.2.2) hsame
  rw [hx, hy, hz] at hbg
  refine ⟨toQRgb ⟨min_luminance, max_luminance, mapping_method⟩ x y z, ?_, ?_⟩
  · rw [hcf, Call.pixel_returned]
    exact hbf
  · rw [hcg, Call.pixel_returned]
    exact hbg

/-- C5, on the two 2 by 1 sample frames, which differ at index 0 and agree at
index 1. -/
theorem fromLDRPFStoQImage_noninterference_witness :
    frame2x1.Valid ∧ frame2x1b.Valid ∧
    frame2x1.triple 0 ≠ frame2x1b.triple 0 ∧
    frame2x1.triple 1 = frame2x1b.triple 1 ∧
    ∃ q,
      (fromLDRPFStoQImage recordingToQRgb staleCell (some frame2x1) 0 1 0).pixel 1 =
        some q ∧
      (fromLDRPFStoQImage recordingToQRgb (fun _ => (⟨9, 9, 9⟩, 9, 9, 9))
        (some frame2x1b) 0 1 0).pixel 1 = some q :=
  ⟨frame2x1_valid, frame2x1b_valid, by decide, by decide,
    fromLDRPFStoQImage_noninterference recordingToQRgb staleCell
      (fun _ => (⟨9, 9, 9⟩, 9, 9, 9)) frame2x1 frame2x1b 0 1 0
      frame2x1_valid frame2x1b_valid rfl rfl 1 (by decide) (by decide)⟩

/-- C6: order independence of the pixel loop. For every valid frame and every
window and method, running the iterations `0, ..., width*height - 1` in the
order given by any permutation of them (every interleaving of the iterations
of any partition of the indices among workers is such an order) ends as the
ascending loop ends: with the same returned image. -/
theorem fromLDRPFStoQImage_order_independent {α M Q : Type}
    (sched : Nat → List Nat)
    (toQRgb : RGBRemapper α M → α → α → α → Q) (uninit : Nat → Q)
    (f : Frame α) (min_luminance max_luminance : α) (mapping_method : M)
    (hv : f.Valid)
    (hp : (sched (f.width * f.height)).Perm (List.range (f.width * f.height))) :
    (fromLDRPFStoQImageSched sched toQRgb uninit (some f) min_luminance max_luminance
        mapping_method).outcome =
      (fromLDRPFStoQImage toQRgb uninit (some f) min_luminance max_luminance
        mapping_method).outcome ∧
    ∃ image : QImage Q,
      (fromLDRPFStoQImage toQRgb uninit (some f) min_luminance max_luminance
        mapping_method).outcome = Outcome.returned image := by
  obtain ⟨hwh, X, Y, Z, hX, hY, hZ, lX, lY, lZ⟩ := hv
  have hs : ∀ i ∈ sched (f.width * f.height), i < f.width * f.height :=
    fun i hi => List.mem_range.mp (hp.mem_iff.mp hi)
  obtain ⟨b1, hc1, hl1, hp1, _⟩ :=
    sched_run sched toQRgb uninit f min_luminance max_luminance mapping_method
      X Y Z hwh hX hY hZ lX lY lZ hs
  obtain ⟨b2, hc2, hl2, hp2, _⟩ :=
    sched_run List.range toQRgb uninit f min_luminance max_luminance mapping_method
      X Y Z hwh hX hY hZ lX lY lZ (fun i hi => List.mem_range.mp hi)
  have hb : b1 = b2 := by
    apply List.ext_getElem?
    intro j
    by_cases hj : j < f.width * f.height
    · obtain ⟨x, y, z, hx, hy, hz, e1⟩ := hp1 j (hp.mem_iff.mpr (List.mem_range.mpr hj))
      obtain ⟨x2, y2, z2, hx2, hy2, hz2, e2⟩ := hp2 j (List.mem_range.mpr hj)
      have ex : x2 = x := Option.some.inj (hx2.symm.trans hx)
      have ey : y2 = y := Option.some.inj (hy2.symm.trans hy)
      have ez : z2 = z := Option.some.inj (hz2.symm.trans hz)
      rw [e1, e2, ex, ey, ez]
    · rw [List.getElem?_eq_none (by omega), List.getElem?_eq_none (by omega)]
  unfold fromLDRPFStoQImage
  rw [hc1, hc2, hb]
  exact ⟨rfl, _, Call.outcome_returned _ _ _ _ _⟩

/-- C6, on the 2 by 1 sample frame with the loop run in descending order. -/
theorem fromLDRPFStoQImage_order_independent_witness :
    frame2x1.Valid ∧
    ((List.range (frame2x1.width * frame2x1.height)).reverse).Perm
      (List.range (frame2x1.width * frame2x1.height)) ∧
    (fromLDRPFStoQImageSched (fun n => (List.range n).reverse) recordingToQRgb staleCell
        (some frame2x1) 0 1 0).outcome =
      (fromLDRPFStoQImage recordingToQRgb staleCell (some frame2x1) 0 1 0).outcome ∧
    ∃ image,
      (fromLDRPFStoQImage recordingToQRgb staleCell (some frame2x1) 0 1 0).outcome =
        Outcome.returned image :=
  ⟨frame2x1_valid, List.reverse_perm _,
    fromLDRPFStoQImage_order_independent (fun n => (List.range n).reverse)
      recordingToQRgb staleCell frame2x1 0 1 0 frame2x1_valid (List.reverse_perm _)⟩

/-- C7: for `ResponseLinear`, `getResponse` and `getInverseResponse` return
their argument unchanged for every input, so `getResponse(0) = 0`,
`getResponse(1) = 1`, and both compositions of the two give back `x` exactly. -/
theorem responseLinear_identity {α : Type} [Zero α] [One α] (r : ResponseLinear) (x : α) :
    r.getResponse x = x ∧ r.getInverseResponse x = x ∧
    r.getResponse (0 : α) = 0 ∧ r.getResponse (1 : α) = 1 ∧
    r.getInverseResponse (r.getResponse x) = x ∧
    r.getResponse (r.getInverseResponse x) = x :=
  ⟨rfl, rfl, rfl, rfl, rfl, rfl⟩

/-- C8: `getType` reports the class of the object: `RESPONSE_GAMMA` for every
`ResponseGamma`, `RESPONSE_LINEAR` for every `ResponseLinear`, `RESPONSE_LOG10`
for every `ResponseLog10`, `RESPONSE_SRGB` for every `ResponseSRGB`; the four
tags are pairwise distinct (as enumerators and as integers), so `getType`,
called through the interface, is injective on the four classes. -/
theorem getType_reports_class :
    (∀ r : ResponseGamma, r.getType = ResponseFunction.RESPONSE_GAMMA) ∧
    (∀ r : ResponseLinear, r.getType = ResponseFunction.RESPONSE_LINEAR) ∧
    (∀ r : ResponseLog10, r.getType = ResponseFunction.RESPONSE_LOG10) ∧
    (∀ r : ResponseSRGB, r.getType = ResponseFunction.RESPONSE_SRGB) ∧
    [ResponseFunction.RESPONSE_GAMMA, ResponseFunction.RESPONSE_LINEAR,
      ResponseFunction.RESPONSE_LOG10, ResponseFunction.RESPONSE_SRGB].Nodup ∧
    Function.Injective ResponseFunction.toInt ∧
    Function.Injective IResponseFunction.getType := by
  refine ⟨fun _ => rfl, fun _ => rfl, fun _ => rfl, fun _ => rfl, by decide, ?_, ?_⟩
  · intro a b hab
    cases a <;> cases b <;> first | rfl | exact absurd hab (by decide)
  · intro a b hab
    cases a <;> cases b <;> first | rfl | exact ResponseFunction.noConfusion hab

/-- C10: frame condition of the pixel loop. For every valid frame, with
`n = width*height`: the iteration for an index `idx` below `n`, run on any
memory of `n` cells per buffer, succeeds, performs the single store to
`pixels[idx]`, leaves every other output pixel and the three channel buffers as
they were; over the whole call each index below `n` is stored exactly once and
no other index is stored; and after the call the frame, with its three
channels, is what it was before. -/
theorem fromLDRPFStoQImage_frame_condition {α M Q : Type}
    (toQRgb : RGBRemapper α M → α → α → α → Q) (uninit : Nat → Q)
    (f : Frame α) (min_luminance max_luminance : α) (mapping_method : M)
    (hv : f.Valid) :
    (∀ idx, idx < f.width * f.height →
      ∀ m : Mem α Q, m.Sized (f.width * f.height) →
        ∃ m1, loopBody toQRgb ⟨min_luminance, max_luminance, mapping_method⟩ idx m =
            some m1 ∧
          m1.events = m.events ++ [Event.store idx] ∧
          (∀ j, j ≠ idx → m1.pixels[j]? = m.pixels[j]?) ∧
          m1.pixels.length = m.pixels.length ∧
          m1.p_R = m.p_R ∧ m1.p_G = m.p_G ∧ m1.p_B = m.p_B) ∧
    (∀ idx,
      (fromLDRPFStoQImage toQRgb uninit (some f) min_luminance max_luminance
        mapping_method).events.count (Event.store idx) =
        if idx < f.width * f.height then 1 else 0) ∧
    (fromLDRPFStoQImage toQRgb uninit (some f) min_luminance max_luminance
        mapping_method).frame = some f := by
  refine ⟨?_, ?_, ?_⟩
  · intro idx hidx m hm
    obtain ⟨r, g, b, _, _, _, hbody⟩ :=
      loopBody_eq toQRgb ⟨min_luminance, max_luminance, mapping_method⟩
        (f.width * f.height) idx m hm hidx
    refine ⟨_, hbody, rfl, ?_, ?_, rfl, rfl, rfl⟩
    · intro j hj
      exact List.getElem?_set_ne (fun e => hj e.symm)
    · exact List.length_set _ _ _
  · intro idx
    obtain ⟨bits, hcall, _, _⟩ :=
      seq_run toQRgb uninit f min_luminance max_luminance mapping_method hv
    rw [hcall, Call.events_mk,
      List.count_cons_of_ne (fun e => Event.noConfusion e), count_store_range]
  · obtain ⟨bits, hcall, _, _⟩ :=
      seq_run toQRgb uninit f min_luminance max_luminance mapping_method hv
    rw [hcall, Call.frame_mk]

/-- C10, on the 2 by 1 sample frame. -/
theorem fromLDRPFStoQImage_frame_condition_witness :
    frame2x1.Valid ∧
    (fromLDRPFStoQImage recordingToQRgb staleCell (some frame2x1) 0 1 0).events =
      [Event.newQImage 2 1, Event.store 0, Event.store 1] ∧
    (∀ idx,
      (fromLDRPFStoQImage recordingToQRgb staleCell (some frame2x1) 0 1 0).events.count
          (Event.store idx) =
        if idx < frame2x1.width * frame2x1.height then 1 else 0) ∧
    (fromLDRPFStoQImage recordingToQRgb staleCell (some frame2x1) 0 1 0).frame =
      some frame2x1 :=
  ⟨frame2x1_valid, by decide,
    (fromLDRPFStoQImage_frame_condition recordingToQRgb staleCell frame2x1 0 1 0
      frame2x1_valid).2⟩

end LuminanceHDR
